import Mathlib

/-!
# Verification of the pipeline tree model of `src/PipelineExplorer.ts`

Shallow embedding of the incremental tree-synchronization model
(Owner → Repo → Build → Stage) of `vscode-jx-tools`.

JavaScript conventions modelled:
* a string field that can be `undefined` is modelled as `String`, with `""`
  standing for both the empty string and `undefined` (the source only ever
  tests such fields for truthiness, and both values are falsy);
* a record field that can be `undefined` is an `Option`;
* a JS `Map` is an insertion-ordered association list with unique keys
  (`Map.set` of an existing key keeps its position, otherwise appends);
* a thrown exception is a `Bool` flag paired with the resulting state: the
  source mutates objects in place, so mutations made before a throw survive.
-/

/-- One entry of `update.statuses`; only its `url` field is read
(`PipelineExplorer.ts` line 198). -/
structure UpStatus where
  url : String
deriving DecidableEq, Repr

/-- The `update` sub-record of a promote step.  `statuses` may be absent;
the source iterates it without a guard (line 197). -/
structure UpdateRecord where
  statuses : Option (List UpStatus)
deriving DecidableEq, Repr

/-- The `pullRequest` sub-record of a promote step (lines 180-191). -/
structure PRRecord where
  pullRequestURL : String
deriving DecidableEq, Repr

/-- The `stage` sub-record of a step (lines 164-171). -/
structure StageRecord where
  name : String
deriving DecidableEq, Repr

/-- The `promote` sub-record of a step (lines 165-209). -/
structure PromoteRecord where
  environment : String
  applicationURL : String
  pullRequest : Option PRRecord
  update : Option UpdateRecord
deriving DecidableEq, Repr

/-- One entry of `spec.steps` (lines 161-210); an entry may itself be null,
which the record above does not capture: the steps list stores `Option Step`. -/
structure Step where
  stage : Option StageRecord
  promote : Option PromoteRecord
deriving DecidableEq, Repr

/-- The fields of a raw pipeline object's `spec` that the model reads
(setter lines 158-159, status line 222, connect lines 516-531). -/
structure PipelineSpec where
  status : String
  build : String
  gitOwner : String
  gitRepository : String
  pipeline : String
  steps : Option (List (Option Step))
deriving DecidableEq, Repr

/-- `obj.metadata` as read by `connect` (line 509). -/
structure MetaRec where
  name : String
deriving DecidableEq, Repr

/-- A raw pipeline-activity object as delivered by the watch. -/
structure Pipeline where
  metadata : Option MetaRec
  spec : Option PipelineSpec
deriving DecidableEq, Repr

/-- `pipeline.spec || {}` (line 232): the empty JS object reads as a spec all
of whose fields are absent. -/
def emptySpec : PipelineSpec :=
  ⟨"", "", "", "", "", Option.none⟩

/-- `get pipelineSpec` of `BuildNode` (lines 229-235). -/
def pipelineSpecOf (p : Option Pipeline) : PipelineSpec :=
  match p with
  | Option.none => emptySpec
  | Option.some pp =>
      match pp.spec with
      | Option.none => emptySpec
      | Option.some s => s

/-- The dynamic step payload stored in a `StageNode` (the `step` constructor
argument, lines 170/179/190/203/207): in JS it is whichever sub-record the
setter happened to pass, or `undefined`. -/
inductive StepRec where
  | undef : StepRec
  | ofStage : StageRecord → StepRec
  | ofPromote : PromoteRecord → StepRec
  | ofPullRequest : PRRecord → StepRec
  | ofUpdate : UpdateRecord → StepRec
deriving DecidableEq, Repr

/-- `addChildUrl` (lines 347-350): appends a path segment to the parent's
identity resource.  Resources are modelled as the full uri string. -/
def addChildUrl (uri : String) (path : String) : String :=
  uri ++ "/" ++ path

/-- `stringCapitalise` (lines 841-846); `""` models the absent/falsy input. -/
def stringCapitalise (text : String) : String :=
  match text.data with
  | [] => ""
  | c :: cs => String.mk (Char.toUpper c :: cs)

/-- Helper for `String.lastIndexOf`: index of the last occurrence of `c`,
`-1` when absent (JS semantics, line 185). -/
def lastIndexOfCharAux (c : Char) : List Char → Nat → Int → Int
  | [], _, best => best
  | x :: xs, i, best =>
      lastIndexOfCharAux c xs (i + 1) (if x = c then Int.ofNat i else best)

/-- `s.lastIndexOf(c)` (line 185). -/
def lastIndexOfChar (s : String) (c : Char) : Int :=
  lastIndexOfCharAux c s.data 0 (-1)

/-- `s.substring(i)` (line 187). -/
def jsSubstringFrom (s : String) (i : Nat) : String :=
  String.mk (s.data.drop i)

/-- The status scan of the `update` branch (lines 196-202): first truthy
`url`, else the loop leaves the last assigned falsy value, which is `""`. -/
def scanUpdateUrl : List UpStatus → String
  | [] => ""
  | s :: rest => if s.url = "" then scanUpdateUrl rest else s.url

/-- The `pullRequest` variable as passed to the update node (line 203):
the promote's `pullRequest` sub-record, or JS `undefined`. -/
def optPRPayload : Option PRRecord → StepRec
  | Option.none => StepRec.undef
  | Option.some pr => StepRec.ofPullRequest pr

/-- A Stage leaf node (`StageNode`, lines 24-92): resource, display name,
owning raw pipeline, step payload, context value, url. -/
structure StageNode where
  resource : String
  name : String
  pipeline : Option Pipeline
  step : StepRec
  contextValue : String
  url : String
deriving DecidableEq, Repr

/-- Stage nodes derived from one step of the pipeline setter
(lines 161-210).  The `Bool` is the JS exception: iterating
`update.statuses` when it is absent throws, after the nodes already pushed
(stage, promote, pull-request) have been added and before the update and
app nodes are. -/
def stepStages (res : String) (pip : Option Pipeline) (step : Step) :
    List StageNode × Bool :=
  let stagePart : List StageNode :=
    match step.stage with
    | Option.none => []
    | Option.some st =>
        [⟨addChildUrl res st.name, st.name, pip, StepRec.ofStage st,
          "vsJenkinsX.pipelines.stage", ""⟩]
  match step.promote with
  | Option.none => (stagePart, false)
  | Option.some promote =>
      let envName := stringCapitalise promote.environment
      let name := "Promote to " ++ envName
      let appUrl := promote.applicationURL
      let stageContextValue :=
        if appUrl = "" then "vsJenkinsX.pipelines.stage"
        else "vsJenkinsX.pipelines.stage.app"
      let promotePart : List StageNode :=
        [⟨addChildUrl res name, name, pip, StepRec.ofPromote promote,
          stageContextValue, appUrl⟩]
      let prPart : List StageNode :=
        match promote.pullRequest with
        | Option.none => []
        | Option.some pullRequest =>
            let prUrl := pullRequest.pullRequestURL
            let pullRequestName :=
              if prUrl = "" then name ++ " Pull Request"
              else if lastIndexOfChar prUrl '/' > 0 then
                name ++ " Pull Request" ++ " #" ++
                  jsSubstringFrom prUrl ((lastIndexOfChar prUrl '/').toNat + 1)
              else name ++ " Pull Request"
            [⟨addChildUrl res name, pullRequestName, pip,
              StepRec.ofPullRequest pullRequest,
              "vsJenkinsX.pipelines.stage.pullRequest", prUrl⟩]
      let appPart : List StageNode :=
        if appUrl = "" then []
        else
          [⟨addChildUrl res name, "App promoted to " ++ envName, pip,
            StepRec.ofPromote promote, "vsJenkinsX.pipelines.stage.app",
            appUrl⟩]
      match promote.update with
      | Option.none => (stagePart ++ promotePart ++ prPart ++ appPart, false)
      | Option.some update =>
          match update.statuses with
          | Option.none => (stagePart ++ promotePart ++ prPart, true)
          | Option.some statuses =>
              let updatePart : List StageNode :=
                [⟨addChildUrl res name, name ++ " Update", pip,
                  optPRPayload promote.pullRequest,
                  "vsJenkinsX.pipelines.stage.update",
                  scanUpdateUrl statuses⟩]
              (stagePart ++ promotePart ++ prPart ++ updatePart ++ appPart,
                false)

/-- The loop over `spec.steps` (lines 160-212); a throw aborts the loop,
keeping the children already pushed. -/
def stepsStages (res : String) (pip : Option Pipeline) :
    List (Option Step) → List StageNode × Bool
  | [] => ([], false)
  | Option.none :: rest => stepsStages res pip rest
  | Option.some st :: rest =>
      let first := stepStages res pip st
      if first.2 then (first.1, true)
      else
        let rest' := stepsStages res pip rest
        (first.1 ++ rest'.1, rest'.2)

/-- The whole child computation of the pipeline setter (lines 152-213). -/
def computeChildren (res : String) (p : Option Pipeline) :
    List StageNode × Bool :=
  match (pipelineSpecOf p).steps with
  | Option.none => ([], false)
  | Option.some steps => stepsStages res p steps

/-- A Build node (`BuildNode`, lines 95-260): its children are the stage
nodes derived from the last upserted raw object. -/
structure BuildNode where
  resource : String
  buildNumber : String
  pipeline : Option Pipeline
  children : List StageNode
deriving DecidableEq, Repr

/-- The `pipeline` setter (lines 152-213): stores the raw object and fully
rebuilds the children; returns the throw flag. -/
def BuildNode.setPipeline (b : BuildNode) (p : Option Pipeline) :
    BuildNode × Bool :=
  (⟨b.resource, b.buildNumber, p, (computeChildren b.resource p).1⟩,
    (computeChildren b.resource p).2)

/-- `BuildNode.getChildren` (lines 102-106): insertion order. -/
def BuildNode.getChildren (b : BuildNode) : List StageNode :=
  b.children

/-- `Map.get` on an insertion-ordered association list. -/
def mapGet {α : Type} : List (String × α) → String → Option α
  | [], _ => Option.none
  | (k, v) :: rest, key =>
      if k = key then Option.some v else mapGet rest key

/-- `Map.set`: replaces in place, else appends. -/
def mapSet {α : Type} : List (String × α) → String → α → List (String × α)
  | [], key, v => [(key, v)]
  | (k, w) :: rest, key, v =>
      if k = key then (key, v) :: rest else (k, w) :: mapSet rest key v

/-- `Map.delete`. -/
def mapDelete {α : Type} : List (String × α) → String → List (String × α)
  | [], _ => []
  | (k, w) :: rest, key =>
      if k = key then rest else (k, w) :: mapDelete rest key

/-- Insert into an ascending list of keys (JS default `Array.sort` on the
unique key strings is any stable comparison sort; keys are unique so all
algorithms agree). -/
def insertKeyAsc (x : String) : List String → List String
  | [] => [x]
  | y :: ys => if x < y then x :: y :: ys else y :: insertKeyAsc x ys

/-- `keys.sort()` of `mapValuesInKeyOrder` (line 805). -/
def sortKeys (l : List String) : List String :=
  List.foldl (fun acc k => insertKeyAsc k acc) [] l

/-- `mapValuesInKeyOrder` (lines 800-814). -/
def mapValuesInKeyOrder {α : Type} (nodes : List (String × α)) : List α :=
  (sortKeys (nodes.map Prod.fst)).filterMap (fun k => mapGet nodes k)

/-- A Repo node (`RepoNode`, lines 263-345). -/
structure RepoNode where
  resource : String
  repoName : String
  nodes : List (String × BuildNode)
deriving DecidableEq, Repr

/-- `RepoNode.isEmpty` (lines 269-271). -/
def RepoNode.isEmpty (r : RepoNode) : Bool :=
  r.nodes.isEmpty

/-- Decimal value of a digit list. -/
def digitsToNat (l : List Char) : Nat :=
  l.foldl (fun n c => n * 10 + (Char.toNat c - Char.toNat '0')) 0

/-- Value of a non-empty all-digit string, else `Option.none`. -/
def strToNat? (s : String) : Option Nat :=
  match s.data with
  | [] => Option.none
  | c :: cs =>
      if (c :: cs).all Char.isDigit then Option.some (digitsToNat (c :: cs))
      else Option.none

/-- `Number(s)` as applied by the unary `+` of the build comparator
(line 322), restricted to the forms that occur as build numbers: `""`
converts to `0`, a decimal digit string to its value, anything else to
`NaN` (`Option.none`). -/
def jsNum (s : String) : Option Nat :=
  if s = "" then Option.some 0 else strToNat? s

/-- Whether the comparator of `RepoNode.getChildren` (lines 314-323)
returns a negative number on `(n1, n2)`.  A `NaN` result (non-numeric build
number) is neither negative nor positive, so the enclosing stable sort
leaves such pairs in their current order; `buildCmpLT` is exactly the
"must move earlier" test of that sort. -/
def buildCmpLT (n1 n2 : BuildNode) : Bool :=
  if n1.buildNumber ≠ "" ∧ n2.buildNumber = "" then false
  else if n1.buildNumber = "" ∧ n2.buildNumber ≠ "" then true
  else
    match jsNum n2.buildNumber, jsNum n1.buildNumber with
    | Option.some a, Option.some b => decide (a < b)
    | _, _ => false

/-- Stable insertion step of the sort model: a later element passes an
earlier one only when the comparator is strictly negative. -/
def insertBuild (x : BuildNode) : List BuildNode → List BuildNode
  | [] => [x]
  | y :: ys => if buildCmpLT x y then x :: y :: ys else y :: insertBuild x ys

/-- `answer.sort(comparator)` (lines 314-323), modelled as the stable
insertion sort over `buildCmpLT`; on comparator results that are ordinary
numbers this is the sorted order, and a `NaN` comparison moves nothing,
matching the engine's treatment of a comparator result that is neither
negative nor positive. -/
def sortBuilds (l : List BuildNode) : List BuildNode :=
  List.foldl (fun acc x => insertBuild x acc) [] l

/-- `RepoNode.getChildren` (lines 309-325). -/
def RepoNode.getChildren (r : RepoNode) : List BuildNode :=
  sortBuilds (r.nodes.map Prod.snd)

/-- `RepoNode.upsertPipeline` (lines 328-337): no-op on a falsy build
number; otherwise creates the build on first reference and runs the
pipeline setter.  The `Bool` is the propagated setter throw; the partially
mutated build stays in the map, as in JS. -/
def RepoNode.upsertPipeline (r : RepoNode) (buildNumber : String)
    (p : Option Pipeline) : RepoNode × Bool :=
  if buildNumber = "" then (r, false)
  else
    match mapGet r.nodes buildNumber with
    | Option.some b =>
        (⟨r.resource, r.repoName,
          mapSet r.nodes buildNumber (BuildNode.setPipeline b p).1⟩,
          (BuildNode.setPipeline b p).2)
    | Option.none =>
        (⟨r.resource, r.repoName,
          mapSet r.nodes buildNumber
            (BuildNode.setPipeline
              ⟨addChildUrl r.resource buildNumber, buildNumber,
                Option.none, []⟩ p).1⟩,
          (BuildNode.setPipeline
            ⟨addChildUrl r.resource buildNumber, buildNumber,
              Option.none, []⟩ p).2)

/-- `RepoNode.deletePipeline` (lines 339-343). -/
def RepoNode.deletePipeline (r : RepoNode) (buildNumber : String)
    (_p : Option Pipeline) : RepoNode :=
  if buildNumber = "" then r
  else ⟨r.resource, r.repoName, mapDelete r.nodes buildNumber⟩

/-- An Owner node (`OwnerNode`, lines 352-417). -/
structure OwnerNode where
  resource : String
  folder : String
  nodes : List (String × RepoNode)
deriving DecidableEq, Repr

/-- `OwnerNode.isEmpty` (lines 358-360): true iff the owner has no repos;
deleting builds never removes a repo, so this stays false once a repo
exists. -/
def OwnerNode.isEmpty (o : OwnerNode) : Bool :=
  o.nodes.isEmpty

/-- `OwnerNode.getChildren` (lines 394-396). -/
def OwnerNode.getChildren (o : OwnerNode) : List RepoNode :=
  mapValuesInKeyOrder o.nodes

/-- `OwnerNode.upsertPipeline` (lines 398-407). -/
def OwnerNode.upsertPipeline (o : OwnerNode) (repoName buildNumber : String)
    (p : Option Pipeline) : OwnerNode × Bool :=
  if repoName = "" then (o, false)
  else
    match mapGet o.nodes repoName with
    | Option.some repo =>
        (⟨o.resource, o.folder,
          mapSet o.nodes repoName
            (RepoNode.upsertPipeline repo buildNumber p).1⟩,
          (RepoNode.upsertPipeline repo buildNumber p).2)
    | Option.none =>
        (⟨o.resource, o.folder,
          mapSet o.nodes repoName
            (RepoNode.upsertPipeline
              ⟨addChildUrl o.resource repoName, repoName, []⟩
              buildNumber p).1⟩,
          (RepoNode.upsertPipeline
            ⟨addChildUrl o.resource repoName, repoName, []⟩
            buildNumber p).2)

/-- `OwnerNode.deletePipeline` (lines 409-416): deletes the build inside
the repo; the repo itself is never removed from the owner's map. -/
def OwnerNode.deletePipeline (o : OwnerNode) (repoName buildNumber : String)
    (p : Option Pipeline) : OwnerNode :=
  if repoName = "" then o
  else
    match mapGet o.nodes repoName with
    | Option.none => o
    | Option.some repo =>
        ⟨o.resource, o.folder,
          mapSet o.nodes repoName
            (RepoNode.deletePipeline repo buildNumber p)⟩

/-- The root model's identity resource, `Uri.parse("pipeline:localhost")`
(line 426). -/
def pipelineRootResource : String :=
  "pipeline:localhost"

/-- The root model (`PipelineModel`, lines 420-562); its only mutable state
is the owner map. -/
structure PipelineModel where
  nodes : List (String × OwnerNode)
deriving DecidableEq, Repr

/-- `PipelineModel.getChildren` (lines 428-430). -/
def PipelineModel.getChildren (m : PipelineModel) : List OwnerNode :=
  mapValuesInKeyOrder m.nodes

/-- `PipelineModel.upsertPipeline` (lines 469-478). -/
def PipelineModel.upsertPipeline (m : PipelineModel)
    (folder repoName buildNumber : String) (p : Option Pipeline) :
    PipelineModel × Bool :=
  if folder = "" then (m, false)
  else
    match mapGet m.nodes folder with
    | Option.some owner =>
        (⟨mapSet m.nodes folder
            (OwnerNode.upsertPipeline owner repoName buildNumber p).1⟩,
          (OwnerNode.upsertPipeline owner repoName buildNumber p).2)
    | Option.none =>
        (⟨mapSet m.nodes folder
            (OwnerNode.upsertPipeline
              ⟨addChildUrl pipelineRootResource folder, folder, []⟩
              repoName buildNumber p).1⟩,
          (OwnerNode.upsertPipeline
            ⟨addChildUrl pipelineRootResource folder, folder, []⟩
            repoName buildNumber p).2)

/-- `PipelineModel.deletePipeline` (lines 480-490): deletes inside the
owner, then removes the owner itself iff its repo map is empty. -/
def PipelineModel.deletePipeline (m : PipelineModel)
    (folder repoName buildNumber : String) (p : Option Pipeline) :
    PipelineModel :=
  if folder = "" then m
  else
    match mapGet m.nodes folder with
    | Option.none => m
    | Option.some owner =>
        let owner2 := OwnerNode.deletePipeline owner repoName buildNumber p
        if owner2.isEmpty then ⟨mapDelete m.nodes folder⟩
        else ⟨mapSet m.nodes folder owner2⟩

/-- A node of the polymorphic tree walked by `nodeForUri` (lines 825-839). -/
inductive TNode where
  | stageN : StageNode → TNode
  | buildN : BuildNode → TNode
  | repoN : RepoNode → TNode
  | ownerN : OwnerNode → TNode
  | modelN : PipelineModel → TNode
deriving DecidableEq, Repr

/-- First hit of a depth-first child scan. -/
def firstSome {α β : Type} (f : α → Option β) : List α → Option β
  | [] => Option.none
  | x :: xs =>
      match f x with
      | Option.some y => Option.some y
      | Option.none => firstSome f xs

/-- `nodeForUri` restricted to a stage subtree (stages have no children). -/
def nodeForUriStage (uri : String) (s : StageNode) : Option TNode :=
  if s.resource = uri then Option.some (TNode.stageN s) else Option.none

/-- `nodeForUri` restricted to a build subtree. -/
def nodeForUriBuild (uri : String) (b : BuildNode) : Option TNode :=
  if b.resource = uri then Option.some (TNode.buildN b)
  else firstSome (nodeForUriStage uri) (BuildNode.getChildren b)

/-- `nodeForUri` restricted to a repo subtree. -/
def nodeForUriRepo (uri : String) (r : RepoNode) : Option TNode :=
  if r.resource = uri then Option.some (TNode.repoN r)
  else firstSome (nodeForUriBuild uri) (RepoNode.getChildren r)

/-- `nodeForUri` restricted to an owner subtree. -/
def nodeForUriOwner (uri : String) (o : OwnerNode) : Option TNode :=
  if o.resource = uri then Option.some (TNode.ownerN o)
  else firstSome (nodeForUriRepo uri) (OwnerNode.getChildren o)

/-- `nodeForUri` from the root (lines 825-839): the spec's
`resolveByIdentity`.  JS compares `node.resource === uri`; resources are
modelled by value, so the comparison is string equality. -/
def nodeForUriModel (uri : String) (m : PipelineModel) : Option TNode :=
  if pipelineRootResource = uri then Option.some (TNode.modelN m)
  else firstSome (nodeForUriOwner uri) (PipelineModel.getChildren m)

/-- Helper of `jsSplit`: accumulates the current segment in reverse. -/
def jsSplitAux (sep : Char) : List Char → List Char → List String
  | [], cur => [String.mk cur.reverse]
  | c :: cs, cur =>
      if c = sep then String.mk cur.reverse :: jsSplitAux sep cs []
      else jsSplitAux sep cs (c :: cur)

/-- `s.split(sep)` for a one-character separator (line 526): JS yields the
(possibly empty) segments between occurrences, `[""]` on the empty
string. -/
def jsSplit (s : String) (sep : Char) : List String :=
  jsSplitAux sep s.data []

/-- The watch callback of `PipelineModel.connect` (lines 508-545).
Returns (new model state, whether `fireChangeEvent` ran, whether the
callback threw).  `obj.metadata.name` throws when `metadata` is absent; a
throw inside `upsertPipeline` skips `fireChangeEvent`. -/
def watchCallback (m : PipelineModel) (type : String) (obj : Pipeline) :
    PipelineModel × Bool × Bool :=
  match obj.metadata with
  | Option.none => (m, false, true)
  | Option.some md =>
      match obj.spec with
      | Option.none => (m, false, false)
      | Option.some spec =>
          if md.name = "" then (m, false, false)
          else if spec.build = "" then (m, false, false)
          else
            let folder0 := spec.gitOwner
            let repo0 := spec.gitRepository
            let pair :=
              if folder0 = "" ∨ repo0 = "" then
                if spec.pipeline = "" then (folder0, repo0)
                else
                  let values := jsSplit spec.pipeline '/'
                  if values.length > 2 then
                    (values.getD 0 "", values.getD 1 "")
                  else (folder0, repo0)
              else (folder0, repo0)
            if pair.1 = "" ∨ pair.2 = "" then (m, false, false)
            else if type = "ADDED" ∨ type = "MODIFIED" then
              let r := PipelineModel.upsertPipeline m pair.1 pair.2
                spec.build (Option.some obj)
              (r.1, !r.2, r.2)
            else if type = "DELETED" then
              (PipelineModel.deletePipeline m pair.1 pair.2 spec.build
                (Option.some obj), true, false)
            else (m, false, false)

/-- Modelled from the spec: the external `moment` library's timestamp
parsing (out of scope of the repository; §4.2 only needs validity and the
difference of the two parsed instants).  A timestamp is valid iff it is a
non-empty decimal digit string, read as epoch milliseconds; real moment
accepts ISO date-times, and strings such as `"not-a-date"` are invalid in
both. -/
def momentParse (s : String) : Option Int :=
  (strToNat? s).map Int.ofNat

/-- Modelled from the spec: `moment.duration(...).humanize()` — a
human-readable rendering of a duration; it is never the empty string. -/
def momentHumanize (d : Int) : String :=
  "a duration of " ++ toString d.natAbs ++ " ms"

/-- `elapsedTime` (lines 848-862). -/
def elapsedTime (pfx : String) (start : String) (completed : String) :
    String :=
  if start = "" then ""
  else if completed = "" then ""
  else
    match momentParse start, momentParse completed with
    | Option.some m1, Option.some m2 =>
        let answer := momentHumanize (m1 - m2)
        if answer = "" then "" else pfx ++ answer
    | _, _ => ""

/-- The empty tree a fresh `PipelineModel` starts with. -/
def emptyModel : PipelineModel :=
  ⟨[]⟩

/-- A well-formed raw object with no steps (used as a concrete input). -/
def okPipeline : Pipeline :=
  ⟨Option.some ⟨"ok"⟩,
    Option.some ⟨"Running", "1", "o", "r", "", Option.none⟩⟩

/-- A raw object whose single step carries `promote.update` without a
`statuses` list: iterating it throws in the pipeline setter (line 197). -/
def badPipeline : Pipeline :=
  ⟨Option.some ⟨"bad"⟩,
    Option.some ⟨"", "1", "o", "r", "",
      Option.some [Option.some
        ⟨Option.none,
          Option.some ⟨"staging", "", Option.none,
            Option.some ⟨Option.none⟩⟩⟩]⟩⟩

/-- The promote step of the spec's promote-expansion example. -/
def promoteStep7 : Step :=
  ⟨Option.none,
    Option.some ⟨"staging", "http://x",
      Option.some ⟨"http://git/pr/42"⟩, Option.none⟩⟩

/-- An empty repo node used as a base for concrete build examples. -/
def repoA : RepoNode :=
  ⟨"pipeline:localhost/o/r", "r", []⟩

/-- The repo of the sort example: builds upserted as "3","1","10","abc". -/
def exampleRepo3 : RepoNode :=
  ((((RepoNode.upsertPipeline repoA "3" Option.none).1.upsertPipeline
      "1" Option.none).1.upsertPipeline
      "10" Option.none).1.upsertPipeline
      "abc" Option.none).1

/-- A repo whose non-numeric build was upserted first. -/
def exampleRepoCex : RepoNode :=
  ((RepoNode.upsertPipeline repoA "abc" Option.none).1.upsertPipeline
    "3" Option.none).1

/-- A build number that is non-empty and parses as a number under `jsNum`. -/
def numericBuild (b : BuildNode) : Prop :=
  b.buildNumber ≠ "" ∧ (jsNum b.buildNumber).isSome = true

/-- Numeric-descending order on builds (`0` default never used under
`numericBuild`). -/
def buildGE (a b : BuildNode) : Prop :=
  (jsNum b.buildNumber).getD 0 ≤ (jsNum a.buildNumber).getD 0

instance (b : BuildNode) : Decidable (numericBuild b) :=
  inferInstanceAs
    (Decidable (b.buildNumber ≠ "" ∧ (jsNum b.buildNumber).isSome = true))

/-! ## Association-list lemmas for the JS `Map` model -/

theorem mapGet_mapSet_self {α : Type} (m : List (String × α)) (k : String)
    (v : α) : mapGet (mapSet m k v) k = Option.some v := by
  induction m with
  | nil => simp [mapGet, mapSet]
  | cons hd tl ih =>
      obtain ⟨k', v'⟩ := hd
      by_cases h : k' = k
      · simp [mapSet, mapGet, h]
      · simp [mapSet, mapGet, h, ih]

theorem mapSet_mapSet_self {α : Type} (m : List (String × α)) (k : String)
    (v w : α) : mapSet (mapSet m k v) k w = mapSet m k w := by
  induction m with
  | nil => simp [mapSet]
  | cons hd tl ih =>
      obtain ⟨k', v'⟩ := hd
      by_cases h : k' = k
      · simp [mapSet, h]
      · simp [mapSet, h, ih]

theorem mapSet_self_of_mapGet {α : Type} (m : List (String × α))
    (k : String) (v : α) (h : mapGet m k = Option.some v) :
    mapSet m k v = m := by
  induction m with
  | nil => simp [mapGet] at h
  | cons hd tl ih =>
      obtain ⟨k', v'⟩ := hd
      by_cases hk : k' = k
      · subst hk
        simp [mapGet] at h
        simp [mapSet, h]
      · simp [mapGet, hk] at h
        simp [mapSet, hk, ih h]

theorem mapSet_append_of_mapGet_none {α : Type} (m : List (String × α))
    (k : String) (v : α) (h : mapGet m k = Option.none) :
    mapSet m k v = m ++ [(k, v)] := by
  induction m with
  | nil => simp [mapSet]
  | cons hd tl ih =>
      obtain ⟨k', v'⟩ := hd
      by_cases hk : k' = k
      · simp [mapGet, hk] at h
      · simp [mapGet, hk] at h
        simp [mapSet, hk, ih h]

theorem mapDelete_of_mapGet_none {α : Type} (m : List (String × α))
    (k : String) (h : mapGet m k = Option.none) : mapDelete m k = m := by
  induction m with
  | nil => simp [mapDelete]
  | cons hd tl ih =>
      obtain ⟨k', v'⟩ := hd
      by_cases hk : k' = k
      · simp [mapGet, hk] at h
      · simp [mapGet, hk] at h
        simp [mapDelete, hk, ih h]

/-- A successful lookup means the list is non-empty. -/
theorem mapGet_some_ne_nil {α : Type} {m : List (String × α)} {k : String}
    {v : α} (h : mapGet m k = Option.some v) : m ≠ [] := by
  intro he
  rw [he] at h
  simp [mapGet] at h

/-! ## Idempotence of the pipeline setter and the upserts -/

theorem setPipeline_set (b : BuildNode) (p : Option Pipeline) :
    BuildNode.setPipeline (BuildNode.setPipeline b p).1 p
      = BuildNode.setPipeline b p := rfl

theorem repoUpsert_idem (r : RepoNode) (bn : String) (p : Option Pipeline) :
    RepoNode.upsertPipeline (RepoNode.upsertPipeline r bn p).1 bn p
      = RepoNode.upsertPipeline r bn p := by
  by_cases hbn : bn = ""
  · simp [RepoNode.upsertPipeline, hbn]
  · cases hget : mapGet r.nodes bn with
    | some b =>
        simp [RepoNode.upsertPipeline, hbn, hget,
          mapGet_mapSet_self, mapSet_mapSet_self, setPipeline_set]
    | none =>
        simp [RepoNode.upsertPipeline, hbn, hget,
          mapGet_mapSet_self, mapSet_mapSet_self, setPipeline_set]

theorem ownerUpsert_idem (o : OwnerNode) (rn bn : String)
    (p : Option Pipeline) :
    OwnerNode.upsertPipeline (OwnerNode.upsertPipeline o rn bn p).1 rn bn p
      = OwnerNode.upsertPipeline o rn bn p := by
  by_cases hrn : rn = ""
  · simp [OwnerNode.upsertPipeline, hrn]
  · cases hget : mapGet o.nodes rn with
    | some repo =>
        simp [OwnerNode.upsertPipeline, hrn, hget,
          mapGet_mapSet_self, mapSet_mapSet_self, repoUpsert_idem]
    | none =>
        simp [OwnerNode.upsertPipeline, hrn, hget,
          mapGet_mapSet_self, mapSet_mapSet_self, repoUpsert_idem]

/-- C6: upserting the same (owner, repo, build, rawObject) twice in a row
yields a tree identical to calling it once — no duplicate Owner/Repo/Build
nodes and the same Stage list (the whole model states, throw flag
included, are equal). -/
theorem C6_upsert_idempotent (m : PipelineModel) (o r bn : String)
    (p : Option Pipeline) :
    PipelineModel.upsertPipeline (PipelineModel.upsertPipeline m o r bn p).1
        o r bn p
      = PipelineModel.upsertPipeline m o r bn p := by
  by_cases ho : o = ""
  · simp [PipelineModel.upsertPipeline, ho]
  · cases hget : mapGet m.nodes o with
    | some owner =>
        simp [PipelineModel.upsertPipeline, ho, hget,
          mapGet_mapSet_self, mapSet_mapSet_self, ownerUpsert_idem]
    | none =>
        simp [PipelineModel.upsertPipeline, ho, hget,
          mapGet_mapSet_self, mapSet_mapSet_self, ownerUpsert_idem]

/-- C4: evaluation of the code at the failing input — upserting a raw
object whose single step carries `promote.update` with no `statuses` list
makes the pipeline setter throw (`for (const status of statuses)` over
`undefined`), so `upsertPipeline` does not terminate normally. -/
theorem C4_upsert_update_throws :
    (PipelineModel.upsertPipeline emptyModel "o" "r" "1"
        (Option.some badPipeline)).2 = true := by
  decide

/-- C5: upserting a raw object fully replaces the Build's Stage list —
after upserting `p1` and then `p2` for a fresh build key, the stored build
carries exactly the stages computed from `p2`; nothing derived from `p1`
survives (the result does not mention `p1`). -/
theorem C5_full_replacement (rep : RepoNode) (bn : String)
    (p1 p2 : Option Pipeline) (hbn : bn ≠ "")
    (hget : mapGet rep.nodes bn = Option.none) :
    mapGet ((RepoNode.upsertPipeline
        (RepoNode.upsertPipeline rep bn p1).1 bn p2).1).nodes bn
      = Option.some
          ⟨addChildUrl rep.resource bn, bn, p2,
            (computeChildren (addChildUrl rep.resource bn) p2).1⟩ := by
  simp [RepoNode.upsertPipeline, hbn, hget, mapGet_mapSet_self,
    mapSet_mapSet_self, BuildNode.setPipeline]

/-- C5 witness: the second of two upserts of build "1" into an empty repo
determines the stored stage list alone. -/
theorem C5_full_replacement_witness :
    mapGet ((RepoNode.upsertPipeline
        (RepoNode.upsertPipeline repoA "1" Option.none).1 "1"
        (Option.some okPipeline)).1).nodes "1"
      = Option.some
          ⟨addChildUrl repoA.resource "1", "1", Option.some okPipeline,
            (computeChildren (addChildUrl repoA.resource "1")
              (Option.some okPipeline)).1⟩ :=
  C5_full_replacement repoA "1" Option.none (Option.some okPipeline)
    (by decide) rfl

/-- C7: a step with
`promote: {environment: "staging", applicationURL: "http://x",
pullRequest: {pullRequestURL: "http://git/pr/42"}}` yields, in order,
"Promote to Staging" (app context), "Promote to Staging Pull Request #42"
(pull-request context) and "App promoted to Staging" (app context), and
the setter does not throw on it. -/
theorem C7_promote_expansion :
    ((stepStages "pipeline:localhost/o/r/1" Option.none promoteStep7).1.map
        StageNode.name
      = ["Promote to Staging", "Promote to Staging Pull Request #42",
          "App promoted to Staging"])
    ∧ ((stepStages "pipeline:localhost/o/r/1" Option.none
          promoteStep7).1.map StageNode.contextValue
      = ["vsJenkinsX.pipelines.stage.app",
          "vsJenkinsX.pipelines.stage.pullRequest",
          "vsJenkinsX.pipelines.stage.app"])
    ∧ (stepStages "pipeline:localhost/o/r/1" Option.none promoteStep7).2
        = false := by
  refine ⟨?_, ?_, ?_⟩ <;> decide

/-- `momentHumanize` never renders a duration as the empty string. -/
theorem momentHumanize_ne_empty (d : Int) : momentHumanize d ≠ "" := by
  intro h
  have h2 := congrArg String.data h
  simp [momentHumanize, String.data_append] at h2

/-- C8: `elapsedTime` returns the prefix followed by the humanized
duration when both timestamps parse, returns `""` when either does not
(it is a total function, so it never throws), and in particular returns
`""` on `("Duration: ", "not-a-date", "also-not")`. -/
theorem C8_elapsed_time :
    (∀ (pfx s c : String) (m1 m2 : Int),
        momentParse s = Option.some m1 → momentParse c = Option.some m2 →
        elapsedTime pfx s c = pfx ++ momentHumanize (m1 - m2))
    ∧ (∀ (pfx s c : String),
        momentParse s = Option.none ∨ momentParse c = Option.none →
        elapsedTime pfx s c = "")
    ∧ elapsedTime "Duration: " "not-a-date" "also-not" = "" := by
  refine ⟨?_, ?_, by decide⟩
  · intro pfx s c m1 m2 h1 h2
    have hs : ¬s = "" := by
      intro he
      rw [he] at h1
      exact Option.noConfusion h1
    have hc : ¬c = "" := by
      intro he
      rw [he] at h2
      exact Option.noConfusion h2
    unfold elapsedTime
    rw [if_neg hs, if_neg hc, h1, h2]
    simp [momentHumanize_ne_empty]
  · intro pfx s c h
    unfold elapsedTime
    by_cases hs : s = ""
    · rw [if_pos hs]
    · rw [if_neg hs]
      by_cases hc : c = ""
      · rw [if_pos hc]
      · rw [if_neg hc]
        cases hps : momentParse s with
        | none => cases hpc : momentParse c <;> rfl
        | some m1 =>
            cases hpc : momentParse c with
            | none => rfl
            | some m2 =>
                rw [hps, hpc] at h
                rcases h with h | h <;> exact Option.noConfusion h

/-- C8 witness: both legs of the theorem at concrete inputs. -/
theorem C8_elapsed_time_witness :
    elapsedTime "D: " "100" "40" = "D: " ++ momentHumanize (100 - 40)
    ∧ elapsedTime "x" "" "5" = "" :=
  ⟨C8_elapsed_time.1 "D: " "100" "40" 100 40 (by decide) (by decide),
    C8_elapsed_time.2.1 "x" "" "5" (Or.inl (by decide))⟩

/-- C9: for a promote step carrying an `update` sub-record (whose statuses
list is present, so that the node is actually emitted), the update-context
Stage node carries the step's `pullRequest` sub-record (or `undefined`) as
its step payload — never the update record itself (line 203 passes
`pullRequest` instead of `update`). -/
theorem C9_update_payload (res : String) (pip : Option Pipeline)
    (pr : PromoteRecord) (u : UpdateRecord) (l : List UpStatus)
    (n : StageNode) (hu : pr.update = Option.some u)
    (hs : u.statuses = Option.some l)
    (hmem : n ∈ (stepStages res pip ⟨Option.none, Option.some pr⟩).1)
    (hctx : n.contextValue = "vsJenkinsX.pipelines.stage.update") :
    n.step = optPRPayload pr.pullRequest
    ∧ ∀ u2 : UpdateRecord, n.step ≠ StepRec.ofUpdate u2 := by
  rcases hpr : pr.pullRequest with _ | prr
  · by_cases happ : pr.applicationURL = ""
    · simp [stepStages, hu, hs, hpr, happ] at hmem
      rcases hmem with rfl | rfl
      · simp at hctx
      · exact ⟨rfl, by intro u2 h; exact StepRec.noConfusion h⟩
    · simp [stepStages, hu, hs, hpr, happ] at hmem
      rcases hmem with rfl | rfl | rfl
      · simp at hctx
      · exact ⟨rfl, by intro u2 h; exact StepRec.noConfusion h⟩
      · simp at hctx
  · by_cases happ : pr.applicationURL = ""
    · simp [stepStages, hu, hs, hpr, happ] at hmem
      rcases hmem with rfl | rfl | rfl
      · simp at hctx
      · simp at hctx
      · exact ⟨rfl, by intro u2 h; exact StepRec.noConfusion h⟩
    · simp [stepStages, hu, hs, hpr, happ] at hmem
      rcases hmem with rfl | rfl | rfl | rfl
      · simp at hctx
      · simp at hctx
      · exact ⟨rfl, by intro u2 h; exact StepRec.noConfusion h⟩
      · simp at hctx

/-- C9 witness: the update node of a concrete promote step (no
pull-request, empty statuses list) carries the `undefined` pull-request
payload, not the update record. -/
theorem C9_update_payload_witness :
    (⟨"R/Promote to Staging", "Promote to Staging Update", Option.none,
        optPRPayload Option.none, "vsJenkinsX.pipelines.stage.update",
        ""⟩ : StageNode).step
      = optPRPayload (Option.none : Option PRRecord)
    ∧ ∀ u2 : UpdateRecord,
        (⟨"R/Promote to Staging", "Promote to Staging Update", Option.none,
            optPRPayload Option.none, "vsJenkinsX.pipelines.stage.update",
            ""⟩ : StageNode).step
          ≠ StepRec.ofUpdate u2 :=
  C9_update_payload "R" Option.none
    ⟨"staging", "", Option.none, Option.some ⟨Option.some []⟩⟩
    ⟨Option.some []⟩ []
    ⟨"R/Promote to Staging", "Promote to Staging Update", Option.none,
      optPRPayload Option.none, "vsJenkinsX.pipelines.stage.update", ""⟩
    rfl rfl (by decide) rfl

/-- C10: a watch event whose type is none of ADDED/MODIFIED/DELETED leaves
the tree unchanged and does not fire the change notification, whatever the
delivered object contains. -/
theorem C10_unknown_event_type (m : PipelineModel) (type : String)
    (obj : Pipeline) (h1 : type ≠ "ADDED") (h2 : type ≠ "MODIFIED")
    (h3 : type ≠ "DELETED") :
    (watchCallback m type obj).1 = m
    ∧ (watchCallback m type obj).2.1 = false := by
  unfold watchCallback
  rcases obj with ⟨md, sp⟩
  cases md with
  | none => exact ⟨rfl, rfl⟩
  | some mdv =>
      cases sp with
      | none => exact ⟨rfl, rfl⟩
      | some spv => simp [h1, h2, h3]

/-- C10 witness: an ERROR event carrying a fully well-formed object is
ignored. -/
theorem C10_unknown_event_type_witness :
    (watchCallback emptyModel "ERROR" okPipeline).1 = emptyModel
    ∧ (watchCallback emptyModel "ERROR" okPipeline).2.1 = false :=
  C10_unknown_event_type emptyModel "ERROR" okPipeline (by decide)
    (by decide) (by decide)

/-- C2 counterexample: neither operation is a no-op in general.  Upserting
with an empty repo name into the empty tree creates (and keeps) an empty
Owner node, and a subsequent delete for a key path that does not exist
("o"/"r"/"5": owner "o" has no repos at all) removes that Owner again —
both calls change the tree. -/
theorem C2_missing_key_cex :
    ((PipelineModel.upsertPipeline emptyModel "o" "" "1" Option.none).1
      ≠ emptyModel)
    ∧ (PipelineModel.deletePipeline
        (PipelineModel.upsertPipeline emptyModel "o" "" "1" Option.none).1
        "o" "r" "5" Option.none
      ≠ (PipelineModel.upsertPipeline emptyModel "o" "" "1"
          Option.none).1) := by
  refine ⟨?_, ?_⟩ <;> decide

/-- C2 amended: `upsert(owner, "", buildNumber, obj)` is a no-op when an
Owner node for `owner` already exists and otherwise (for non-empty owner)
appends a fresh empty Owner node and changes nothing else; `delete` is a
no-op when its Owner key is absent, when the Owner exists but the repo key
is absent while the Owner still has repos, and when the repo exists but
the build key is absent — but when the addressed Owner exists with an
empty repo map, `delete` removes that Owner. -/
theorem C2_missing_key_amended :
    (∀ (m : PipelineModel) (o bn : String) (p : Option Pipeline)
        (ow : OwnerNode), mapGet m.nodes o = Option.some ow →
        PipelineModel.upsertPipeline m o "" bn p = (m, false))
    ∧ (∀ (m : PipelineModel) (o bn : String) (p : Option Pipeline),
        o ≠ "" → mapGet m.nodes o = Option.none →
        PipelineModel.upsertPipeline m o "" bn p
          = (⟨m.nodes ++
              [(o, ⟨addChildUrl pipelineRootResource o, o, []⟩)]⟩, false))
    ∧ (∀ (m : PipelineModel) (o r bn : String) (p : Option Pipeline),
        mapGet m.nodes o = Option.none →
        PipelineModel.deletePipeline m o r bn p = m)
    ∧ (∀ (m : PipelineModel) (o r bn : String) (p : Option Pipeline)
        (ow : OwnerNode), mapGet m.nodes o = Option.some ow →
        ow.nodes ≠ [] → mapGet ow.nodes r = Option.none →
        PipelineModel.deletePipeline m o r bn p = m)
    ∧ (∀ (m : PipelineModel) (o r bn : String) (p : Option Pipeline)
        (ow : OwnerNode) (rep : RepoNode),
        mapGet m.nodes o = Option.some ow →
        mapGet ow.nodes r = Option.some rep →
        mapGet rep.nodes bn = Option.none →
        PipelineModel.deletePipeline m o r bn p = m)
    ∧ (∀ (m : PipelineModel) (o r bn : String) (p : Option Pipeline)
        (ow : OwnerNode), o ≠ "" → mapGet m.nodes o = Option.some ow →
        ow.nodes = [] →
        PipelineModel.deletePipeline m o r bn p = ⟨mapDelete m.nodes o⟩) := by
  refine ⟨?_, ?_, ?_, ?_, ?_, ?_⟩
  · intro m o bn p ow hget
    by_cases ho : o = ""
    · simp [PipelineModel.upsertPipeline, ho]
    · simp [PipelineModel.upsertPipeline, ho, hget,
        OwnerNode.upsertPipeline, mapSet_self_of_mapGet m.nodes o ow hget]
  · intro m o bn p ho hget
    simp [PipelineModel.upsertPipeline, ho, hget,
      OwnerNode.upsertPipeline, addChildUrl,
      mapSet_append_of_mapGet_none m.nodes o _ hget]
  · intro m o r bn p hget
    by_cases ho : o = ""
    · simp [PipelineModel.deletePipeline, ho]
    · simp [PipelineModel.deletePipeline, ho, hget]
  · intro m o r bn p ow hget hne hrget
    by_cases ho : o = ""
    · simp [PipelineModel.deletePipeline, ho]
    · by_cases hr : r = ""
      · simp [PipelineModel.deletePipeline, ho, hget,
          OwnerNode.deletePipeline, hr, OwnerNode.isEmpty,
          List.isEmpty_iff, hne,
          mapSet_self_of_mapGet m.nodes o ow hget]
      · simp [PipelineModel.deletePipeline, ho, hget,
          OwnerNode.deletePipeline, hr, hrget, OwnerNode.isEmpty,
          List.isEmpty_iff, hne,
          mapSet_self_of_mapGet m.nodes o ow hget]
  · intro m o r bn p ow rep hget hrget hbget
    by_cases ho : o = ""
    · simp [PipelineModel.deletePipeline, ho]
    · by_cases hr : r = ""
      · simp [PipelineModel.deletePipeline, ho, hget,
          OwnerNode.deletePipeline, hr, OwnerNode.isEmpty,
          List.isEmpty_iff, mapGet_some_ne_nil hrget,
          mapSet_self_of_mapGet m.nodes o ow hget]
      · by_cases hbn : bn = ""
        · simp [PipelineModel.deletePipeline, ho, hget,
            OwnerNode.deletePipeline, hr, hrget,
            RepoNode.deletePipeline, hbn, OwnerNode.isEmpty,
            List.isEmpty_iff, mapGet_some_ne_nil hrget,
            mapSet_self_of_mapGet ow.nodes r rep hrget,
            mapSet_self_of_mapGet m.nodes o ow hget]
        · simp [PipelineModel.deletePipeline, ho, hget,
            OwnerNode.deletePipeline, hr, hrget,
            RepoNode.deletePipeline, hbn, OwnerNode.isEmpty,
            List.isEmpty_iff, mapGet_some_ne_nil hrget,
            mapDelete_of_mapGet_none rep.nodes bn hbget,
            mapSet_self_of_mapGet ow.nodes r rep hrget,
            mapSet_self_of_mapGet m.nodes o ow hget]
  · intro m o r bn p ow ho hget hnil
    by_cases hr : r = ""
    · simp [PipelineModel.deletePipeline, ho, hget,
        OwnerNode.deletePipeline, hr, OwnerNode.isEmpty, hnil]
    · simp [PipelineModel.deletePipeline, ho, hget,
        OwnerNode.deletePipeline, hr, hnil, mapGet, OwnerNode.isEmpty]

/-- C2 witness: the amended behaviour at concrete inputs — upsert with an
empty repo name appends exactly one empty Owner, and delete of a
nonexistent key path under that (repo-less) Owner prunes it. -/
theorem C2_missing_key_witness :
    PipelineModel.upsertPipeline emptyModel "o" "" "1" Option.none
      = (⟨emptyModel.nodes ++
          [("o", ⟨addChildUrl pipelineRootResource "o", "o", []⟩)]⟩, false)
    ∧ PipelineModel.deletePipeline
        ⟨[("o", ⟨addChildUrl pipelineRootResource "o", "o", []⟩)]⟩
        "o" "r" "5" Option.none
      = ⟨mapDelete
          [("o", ⟨addChildUrl pipelineRootResource "o", "o", []⟩)] "o"⟩ :=
  ⟨C2_missing_key_amended.2.1 emptyModel "o" "1" Option.none (by decide)
      (by decide),
    C2_missing_key_amended.2.2.2.2.2
      ⟨[("o", ⟨addChildUrl pipelineRootResource "o", "o", []⟩)]⟩
      "o" "r" "5" Option.none
      ⟨addChildUrl pipelineRootResource "o", "o", []⟩
      (by decide) (by decide) rfl⟩

/-- C1 counterexample: build the tree with one owner/repo/build, delete
that only build — the Owner is still among the root's children (its Repo
map is non-empty, holding the now-empty Repo, and only an empty Owner is
pruned), and `nodeForUri` for the Owner's identity resource still returns
a node rather than none. -/
theorem C1_owner_pruning_cex :
    mapGet (PipelineModel.deletePipeline
        (PipelineModel.upsertPipeline emptyModel "o" "r" "1"
          (Option.some okPipeline)).1
        "o" "r" "1" (Option.some okPipeline)).nodes "o" ≠ Option.none
    ∧ nodeForUriModel (addChildUrl pipelineRootResource "o")
        (PipelineModel.deletePipeline
          (PipelineModel.upsertPipeline emptyModel "o" "r" "1"
            (Option.some okPipeline)).1
          "o" "r" "1" (Option.some okPipeline)) ≠ Option.none := by
  refine ⟨?_, ?_⟩ <;> decide

/-- C1 amended: in a tree whose root holds exactly one Owner, holding
exactly one Repo, holding exactly one Build, deleting that Build does NOT
remove the Owner: the Owner stays among the root's children, now holding
the emptied Repo, and `nodeForUri` (the spec's `resolveByIdentity`) on the
Owner's identity resource returns that Owner, not none. -/
theorem C1_owner_pruning_amended (o r bn : String) (p : Option Pipeline)
    (ow : OwnerNode) (rep : RepoNode) (b : BuildNode)
    (ho : o ≠ "") (hr : r ≠ "") (hbn : bn ≠ "")
    (hres : ow.resource ≠ pipelineRootResource)
    (hown : ow.nodes = [(r, rep)]) (hrn : rep.nodes = [(bn, b)]) :
    PipelineModel.deletePipeline ⟨[(o, ow)]⟩ o r bn p
      = ⟨[(o, ⟨ow.resource, ow.folder,
            [(r, ⟨rep.resource, rep.repoName, []⟩)]⟩)]⟩
    ∧ nodeForUriModel ow.resource
        (PipelineModel.deletePipeline ⟨[(o, ow)]⟩ o r bn p)
      = Option.some (TNode.ownerN
          ⟨ow.resource, ow.folder,
            [(r, ⟨rep.resource, rep.repoName, []⟩)]⟩) := by
  have hdel : PipelineModel.deletePipeline ⟨[(o, ow)]⟩ o r bn p
      = ⟨[(o, ⟨ow.resource, ow.folder,
            [(r, ⟨rep.resource, rep.repoName, []⟩)]⟩)]⟩ := by
    simp [PipelineModel.deletePipeline, ho, mapGet,
      OwnerNode.deletePipeline, hr, hown, RepoNode.deletePipeline, hbn,
      hrn, mapDelete, mapSet, OwnerNode.isEmpty]
  refine ⟨hdel, ?_⟩
  rw [hdel]
  have hres2 : pipelineRootResource ≠ ow.resource := fun h => hres h.symm
  simp [nodeForUriModel, PipelineModel.getChildren, mapValuesInKeyOrder,
    sortKeys, insertKeyAsc, mapGet, firstSome, nodeForUriOwner, hres2]

/-- C1 witness: the amended behaviour at the concrete one-owner, one-repo,
one-build tree. -/
theorem C1_owner_pruning_witness :
    PipelineModel.deletePipeline
        ⟨[("o", ⟨"pipeline:localhost/o", "o",
            [("r", ⟨"pipeline:localhost/o/r", "r",
                [("1", ⟨"pipeline:localhost/o/r/1", "1",
                    Option.none, []⟩)]⟩)]⟩)]⟩ "o" "r" "1" Option.none
      = ⟨[("o", ⟨"pipeline:localhost/o", "o",
            [("r", ⟨"pipeline:localhost/o/r", "r", []⟩)]⟩)]⟩
    ∧ nodeForUriModel "pipeline:localhost/o"
        (PipelineModel.deletePipeline
          ⟨[("o", ⟨"pipeline:localhost/o", "o",
              [("r", ⟨"pipeline:localhost/o/r", "r",
                  [("1", ⟨"pipeline:localhost/o/r/1", "1",
                      Option.none, []⟩)]⟩)]⟩)]⟩ "o" "r" "1" Option.none)
      = Option.some (TNode.ownerN
          ⟨"pipeline:localhost/o", "o",
            [("r", ⟨"pipeline:localhost/o/r", "r", []⟩)]⟩) :=
  C1_owner_pruning_amended "o" "r" "1" Option.none
    ⟨"pipeline:localhost/o", "o",
      [("r", ⟨"pipeline:localhost/o/r", "r",
          [("1", ⟨"pipeline:localhost/o/r/1", "1", Option.none, []⟩)]⟩)]⟩
    ⟨"pipeline:localhost/o/r", "r",
      [("1", ⟨"pipeline:localhost/o/r/1", "1", Option.none, []⟩)]⟩
    ⟨"pipeline:localhost/o/r/1", "1", Option.none, []⟩
    (by decide) (by decide) (by decide) (by decide) rfl rfl

/-! ## The build sort -/

theorem mem_insertBuild (x z : BuildNode) (l : List BuildNode) :
    z ∈ insertBuild x l ↔ z = x ∨ z ∈ l := by
  induction l with
  | nil => simp [insertBuild]
  | cons y ys ih =>
      by_cases h : buildCmpLT x y
      · simp [insertBuild, h]
      · simp [insertBuild, h, ih]
        tauto

theorem numlt_of_buildCmpLT {x y : BuildNode} (hx : numericBuild x)
    (hy : numericBuild y) (h : buildCmpLT x y = true) :
    (jsNum y.buildNumber).getD 0 < (jsNum x.buildNumber).getD 0 := by
  obtain ⟨hx1, hx2⟩ := hx
  obtain ⟨hy1, hy2⟩ := hy
  obtain ⟨a, ha⟩ := Option.isSome_iff_exists.mp hx2
  obtain ⟨c, hc⟩ := Option.isSome_iff_exists.mp hy2
  unfold buildCmpLT at h
  rw [if_neg (fun hcon => hy1 hcon.2),
    if_neg (fun hcon => hx1 hcon.1), ha, hc] at h
  rw [ha, hc]
  simpa using h

theorem numle_of_not_buildCmpLT {x y : BuildNode} (hx : numericBuild x)
    (hy : numericBuild y) (h : buildCmpLT x y = false) :
    (jsNum x.buildNumber).getD 0 ≤ (jsNum y.buildNumber).getD 0 := by
  obtain ⟨hx1, hx2⟩ := hx
  obtain ⟨hy1, hy2⟩ := hy
  obtain ⟨a, ha⟩ := Option.isSome_iff_exists.mp hx2
  obtain ⟨c, hc⟩ := Option.isSome_iff_exists.mp hy2
  unfold buildCmpLT at h
  rw [if_neg (fun hcon => hy1 hcon.2),
    if_neg (fun hcon => hx1 hcon.1), ha, hc] at h
  rw [ha, hc]
  simp only [Option.getD_some]
  simp at h
  omega

theorem insertBuild_pairwise (x : BuildNode) (l : List BuildNode)
    (hx : numericBuild x) (hl : ∀ y ∈ l, numericBuild y)
    (hp : l.Pairwise buildGE) : (insertBuild x l).Pairwise buildGE := by
  induction l with
  | nil => simp [insertBuild, buildGE]
  | cons y ys ih =>
      rw [List.pairwise_cons] at hp
      obtain ⟨hy_all, hp_ys⟩ := hp
      have hy : numericBuild y := hl y (List.mem_cons_self _ _)
      have hys : ∀ z ∈ ys, numericBuild z :=
        fun z hz => hl z (List.mem_cons_of_mem _ hz)
      by_cases h : buildCmpLT x y
      · simp only [insertBuild, if_pos h]
        refine List.Pairwise.cons ?_ (List.Pairwise.cons hy_all hp_ys)
        intro z hz
        rcases List.mem_cons.mp hz with rfl | hz
        · exact le_of_lt (numlt_of_buildCmpLT hx hy h)
        · exact le_trans (hy_all z hz)
            (le_of_lt (numlt_of_buildCmpLT hx hy h))
      · have hf : buildCmpLT x y = false := by simpa using h
        simp only [insertBuild, if_neg h]
        refine List.Pairwise.cons ?_ (ih hys hp_ys)
        intro z hz
        rcases (mem_insertBuild x z ys).mp hz with rfl | hz
        · exact numle_of_not_buildCmpLT hx hy hf
        · exact hy_all z hz

theorem foldl_insertBuild_pairwise (l : List BuildNode) :
    ∀ acc : List BuildNode, (∀ y ∈ l, numericBuild y) →
      (∀ y ∈ acc, numericBuild y) → acc.Pairwise buildGE →
      (List.foldl (fun a x => insertBuild x a) acc l).Pairwise buildGE := by
  induction l with
  | nil =>
      intro acc _ _ hp
      simpa using hp
  | cons x xs ih =>
      intro acc hl hacc hp
      simp only [List.foldl_cons]
      apply ih
      · intro y hy
        exact hl y (List.mem_cons_of_mem _ hy)
      · intro y hy
        rcases (mem_insertBuild x y acc).mp hy with rfl | hy
        · exact hl y (List.mem_cons_self _ _)
        · exact hacc y hy
      · exact insertBuild_pairwise x acc (hl x (List.mem_cons_self _ _))
          hacc hp

/-- C3 counterexample: a Repo holding builds inserted as "abc", "3"
returns them as ["abc", "3"] — the non-numeric build number is first, not
last (it compares as NaN, i.e. "do not move", against everything), so
`getChildren` does not sort non-numeric build numbers last. -/
theorem C3_build_sort_cex :
    (RepoNode.getChildren exampleRepoCex).map BuildNode.buildNumber
      = ["abc", "3"]
    ∧ (RepoNode.getChildren exampleRepoCex).map BuildNode.buildNumber
      ≠ ["3", "abc"] := by
  refine ⟨by decide, by decide⟩

/-- C3 amended: builds whose numbers are all non-empty numeric strings are
returned in numeric-descending order; a non-numeric build number compares
as NaN (neither negative nor positive) against every neighbour and so
keeps its insertion-relative position instead of necessarily sorting
last; in particular builds upserted as "3","1","10","abc" are returned as
["10","3","1","abc"]. -/
theorem C3_build_sort_amended :
    (∀ r : RepoNode, (∀ b ∈ r.nodes.map Prod.snd, numericBuild b) →
        (RepoNode.getChildren r).Pairwise buildGE)
    ∧ (RepoNode.getChildren exampleRepo3).map BuildNode.buildNumber
        = ["10", "3", "1", "abc"] := by
  refine ⟨?_, by decide⟩
  intro r hnum
  exact foldl_insertBuild_pairwise (r.nodes.map Prod.snd) [] hnum
    (by simp) (by simp)

/-- C3 witness: a concrete all-numeric repo is returned
numeric-descending. -/
theorem C3_build_sort_witness :
    (RepoNode.getChildren ⟨"R", "r",
        [("3", ⟨"R/3", "3", Option.none, []⟩),
          ("1", ⟨"R/1", "1", Option.none, []⟩),
          ("10", ⟨"R/10", "10", Option.none, []⟩)]⟩).Pairwise buildGE :=
  C3_build_sort_amended.1
    ⟨"R", "r",
      [("3", ⟨"R/3", "3", Option.none, []⟩),
        ("1", ⟨"R/1", "1", Option.none, []⟩),
        ("10", ⟨"R/10", "10", Option.none, []⟩)]⟩ (by decide)
